import Mathlib

/-!
# Verification of the senteng-design-system Google service layer

A shallow embedding, in Lean 4, of the parts of the repository that the
specification's testable properties talk about:

* `src/services/googleService.js` — `syncToSheet`, `addToCalendar`,
  `uploadToDrive`, `ensureGapiClient` / `loadGapiScript`, `initClient`;
* `App.jsx` — `sheetValuesToObjects`, the grid-to-record mapper;
* the Vercel token-exchange handler (`api` function).

JavaScript values are modelled by the inductive `JSValue`; machine numbers
that the code renders into cells are integers rendered in decimal, matching
`String(v)` / template-literal rendering for the integral values the
application stores.  Asynchronous effects (Sheets / Calendar / Drive API
calls) are modelled as explicit request lists returned alongside the result;
the awaited `ensureGapiClient()` bootstrap outcome is passed in as an
`Except` parameter.
-/

namespace Senteng

/-- JavaScript runtime values, as far as the service code inspects them. -/
inductive JSValue where
  | undef
  | null
  | bool (b : Bool)
  | num (n : Int)
  | str (s : String)
  | arr (elems : List JSValue)
  | obj (fields : List (String × JSValue))

/-- JS truthiness of a string: every string except `""` is truthy. -/
def strTruthy (s : String) : Bool := s != ""

/-- JS truthiness of a value that is either a string or `undefined`/`null`
(the shape of `obj.id`, `event.time`, env vars and the like). -/
def optTruthy : Option String → Bool
  | none => false
  | some s => strTruthy s

/-! ## Decimal rendering of numbers

`String(n)` and template literals render an integral JS number in decimal.
The rendering is defined with explicit fuel so that it reduces inside the
kernel, and proved injective through the evaluation map `decVal`. -/

/-- The decimal digit characters. -/
def digitChar : Nat → Char
  | 0 => '0' | 1 => '1' | 2 => '2' | 3 => '3' | 4 => '4'
  | 5 => '5' | 6 => '6' | 7 => '7' | 8 => '8' | _ => '9'

/-- Numeric value of a decimal digit character. -/
def charDigit (c : Char) : Nat := c.toNat - 48

/-- Decimal digits of `n`, most significant first; `fuel` bounds recursion. -/
def decDigitsCore : Nat → Nat → List Char
  | 0, _ => []
  | fuel + 1, n =>
      if n < 10 then [digitChar n]
      else decDigitsCore fuel (n / 10) ++ [digitChar (n % 10)]

/-- Decimal rendering of a natural number, as JS renders integral numbers. -/
def decStr (n : Nat) : String := ⟨decDigitsCore (n + 1) n⟩

/-- Decimal rendering of an integer (`String(v)` on an integral number). -/
def intStr (i : Int) : String :=
  if i < 0 then "-" ++ decStr i.natAbs else decStr i.natAbs

/-- Left fold evaluating a digit string back to a number. -/
def decVal (cs : List Char) : Nat :=
  cs.foldl (fun a c => a * 10 + charDigit c) 0

theorem charDigit_digitChar {d : Nat} (h : d < 10) :
    charDigit (digitChar d) = d := by
  interval_cases d <;> decide

theorem decDigitsCore_fuel :
    ∀ {f₁ f₂ n : Nat}, n < f₁ → n < f₂ →
      decDigitsCore f₁ n = decDigitsCore f₂ n := by
  intro f₁
  induction f₁ with
  | zero => intro f₂ n h₁; omega
  | succ f ih =>
    intro f₂ n h₁ h₂
    cases f₂ with
    | zero => omega
    | succ g =>
      simp only [decDigitsCore]
      by_cases hlt : n < 10
      · simp [hlt]
      · have hd : n / 10 < n := Nat.div_lt_self (by omega) (by omega)
        rw [if_neg hlt, if_neg hlt, ih (show n / 10 < f by omega) (show n / 10 < g by omega)]

theorem decVal_append_digit (cs : List Char) (c : Char) :
    decVal (cs ++ [c]) = decVal cs * 10 + charDigit c := by
  simp [decVal, List.foldl_append]

theorem decDigitsCore_succ (f n : Nat) :
    decDigitsCore (f + 1) n =
      if n < 10 then [digitChar n]
      else decDigitsCore f (n / 10) ++ [digitChar (n % 10)] := rfl

theorem decVal_decDigits : ∀ n : Nat, decVal (decDigitsCore (n + 1) n) = n := by
  intro n
  induction n using Nat.strong_induction_on with
  | _ n ih =>
    by_cases h : n < 10
    · simp [decDigitsCore, h, decVal, charDigit_digitChar h]
    · have hd : n / 10 < n := Nat.div_lt_self (by omega) (by omega)
      have step : decDigitsCore (n + 1) n
          = decDigitsCore (n / 10 + 1) (n / 10) ++ [digitChar (n % 10)] := by
        rw [decDigitsCore_succ, if_neg h,
          decDigitsCore_fuel (show n / 10 < n by omega) (Nat.lt_succ_self _)]
      rw [step, decVal_append_digit, ih (n / 10) hd,
        charDigit_digitChar (Nat.mod_lt _ (by omega))]
      omega

theorem decStr_injective : Function.Injective decStr := by
  intro m n h
  have hdata : decDigitsCore (m + 1) m = decDigitsCore (n + 1) n :=
    congrArg String.data h
  have := decVal_decDigits m
  rw [hdata, decVal_decDigits n] at this
  omega

/-! ## JSON serialisation

`JSON.stringify` as the sheet writer uses it on array/object cell values.
Control characters other than the common escapes would be `\u`-escaped by the
real serialiser; the application's data never contains them. -/

/-- Escape of one character inside a JSON string literal. -/
def jsonEscapeChar (c : Char) : String :=
  if c = '"' then "\\\""
  else if c = '\\' then "\\\\"
  else if c = '\n' then "\\n"
  else if c = '\r' then "\\r"
  else if c = '\t' then "\\t"
  else String.singleton c

/-- Escape of a string body inside a JSON string literal. -/
def jsonEscape (s : String) : String := String.join (s.data.map jsonEscapeChar)

mutual

/-- `JSON.stringify` on a `JSValue`.  A top-level `undefined` cannot reach this
function in `syncToSheet` (the null/undefined test comes first); inside arrays
`undefined` renders as `null` and inside objects the field is skipped, as the
real serialiser does. -/
def jsonStringify : JSValue → String
  | .undef => "null"
  | .null => "null"
  | .bool b => if b then "true" else "false"
  | .num n => intStr n
  | .str s => "\"" ++ jsonEscape s ++ "\""
  | .arr xs => "[" ++ jsonArrayBody xs ++ "]"
  | .obj fs => "\x7b" ++ jsonObjectBody fs ++ "\x7d"

/-- Comma-joined renderings of array elements. -/
def jsonArrayBody : List JSValue → String
  | [] => ""
  | [v] => jsonStringify v
  | v :: w :: rest => jsonStringify v ++ "," ++ jsonArrayBody (w :: rest)

/-- Comma-joined renderings of object fields, skipping `undefined` values. -/
def jsonObjectBody : List (String × JSValue) → String
  | [] => ""
  | (k, v) :: rest =>
      match v with
      | .undef => jsonObjectBody rest
      | _ =>
          let cell := "\"" ++ jsonEscape k ++ "\":" ++ jsonStringify v
          let tail := jsonObjectBody rest
          if tail == "" then cell else cell ++ "," ++ tail

end

/-! ## Sheet-backed data mapper, write side (`googleService.syncToSheet`) -/

/-- `Object.keys(item || {})`: enumeration keys of a JS value.  Objects
enumerate their own keys (modelled in insertion order; no claim depends on
the engine's integer-key reordering), arrays and strings enumerate index
keys, primitives and `null`/`undefined` (after the `|| {}` fallback) have
none. -/
def jsKeys : JSValue → List String
  | .obj fs => fs.map Prod.fst
  | .arr xs => (List.range xs.length).map decStr
  | .str s => (List.range s.data.length).map decStr
  | _ => []

/-- Optional-chaining member access `item?.[key]`. -/
def jsGet : JSValue → String → Option JSValue
  | .obj fs, k => (fs.find? (fun p => p.1 == k)).map Prod.snd
  | .arr xs, k =>
      ((List.range xs.length).find? (fun i => decStr i == k)).bind
        (fun i => xs.get? i)
  | .str s, k =>
      ((List.range s.data.length).find? (fun i => decStr i == k)).bind
        (fun i => (s.data.get? i).map (fun c => .str (String.singleton c)))
  | _, _ => none

/-- The per-cell serialisation in `syncToSheet`'s row builder:
`null`/`undefined` become `""`, arrays and objects their JSON text, other
scalars their `String(v)` rendering.  (The `try`/`catch` around
`JSON.stringify` is unreachable on finite trees: the serialiser only throws
on circular structures.) -/
def serializeCell : Option JSValue → String
  | none => ""
  | some .undef => ""
  | some .null => ""
  | some (.bool b) => if b then "true" else "false"
  | some (.num n) => intStr n
  | some (.str s) => s
  | some (.arr xs) => jsonStringify (.arr xs)
  | some (.obj fs) => jsonStringify (.obj fs)

/-- First-occurrence deduplication with an accumulator of already seen keys:
`Array.from(new Set(list))` keeps the first occurrence of each element. -/
def firstDedupAux (seen : List String) : List String → List String
  | [] => []
  | k :: ks =>
      if seen.contains k then firstDedupAux seen ks
      else k :: firstDedupAux (k :: seen) ks

/-- `allKeys`: the union, in first-appearance order, of the keys of all
records in the collection. -/
def allKeysOf (values : List JSValue) : List String :=
  firstDedupAux [] (values.map jsKeys).flatten

/-- One data row: the record's cells in `allKeys` order. -/
def projectRecord (keys : List String) (item : JSValue) :
    List (String × String) :=
  keys.map (fun k => (k, serializeCell (jsGet item k)))

/-- The grid `syncToSheet` writes for a non-empty collection: the header row
of all keys followed by one serialised row per record. -/
def sheetRows (values : List JSValue) : List (List String) :=
  allKeysOf values ::
    values.map (fun item =>
      (allKeysOf values).map (fun key => serializeCell (jsGet item key)))

/-- A Sheets API call issued by `syncToSheet`. -/
inductive SheetEffect where
  | clear (range : String)
  | update (range : String) (valueInputOption : String)
      (rows : List (List String))
deriving DecidableEq

/-- What `syncToSheet` returns: the literal `{ success: true }` on the empty
path, or the update call's result (carrying the written grid) otherwise. -/
inductive SyncResult where
  | success
  | updateResult (rows : List (List String))
deriving DecidableEq

/-- `syncToSheet(sheetName, dataArray)`: the awaited `ensureGapiClient()`
outcome is `gapi`; a non-array argument is replaced by `[]`; an empty
collection only clears `A:Z`; otherwise the sheet is cleared and the full
grid written with `valueInputOption: "RAW"` starting at `A1`. -/
def syncToSheet (gapi : Except String Unit) (sheetName : String)
    (dataArray : JSValue) : Except String (List SheetEffect × SyncResult) :=
  match gapi with
  | .error e => .error e
  | .ok _ =>
      let values : List JSValue :=
        match dataArray with
        | .arr xs => xs
        | _ => []
      if values.isEmpty then
        .ok ([.clear (sheetName ++ "!A:Z")], .success)
      else
        .ok ([.clear (sheetName ++ "!A:Z"),
              .update (sheetName ++ "!A1") "RAW" (sheetRows values)],
             .updateResult (sheetRows values))

/-! ## Sheet-backed data mapper, read side (`App.jsx sheetValuesToObjects`) -/

/-- JS `map((x, idx) => ...)` with an explicit running index. -/
def mapWithIdx (f : Nat → α → β) : Nat → List α → List β
  | _, [] => []
  | i, a :: as => f i a :: mapWithIdx f (i + 1) as

/-- JS property assignment `obj[key] = v` on the accumulating record:
overwrites in place when the key exists, appends otherwise. -/
def objSet (obj : List (String × String)) (k v : String) :
    List (String × String) :=
  if obj.any (fun p => p.1 == k) then
    obj.map (fun p => if p.1 == k then (p.1, v) else p)
  else obj ++ [(k, v)]

/-- Property read `obj[key]` on a built record. -/
def objLookup (obj : List (String × String)) (k : String) : Option String :=
  (obj.find? (fun p => p.1 == k)).map Prod.snd

/-- `header.forEach((key, i) => { if (!key) return; obj[key] = row[i] ?? ""; })`:
headers and cells are consumed positionally, a falsy (empty) header key is
skipped, and a missing cell becomes `""`. -/
def buildObj (obj : List (String × String)) :
    List String → List String → List (String × String)
  | [], _ => obj
  | key :: keys, cells =>
      if key = "" then buildObj obj keys cells.tail
      else buildObj (objSet obj key (cells.headD "")) keys cells.tail

/-- The body of `sheetValuesToObjects`'s row mapper: build the record from
header and row, then synthesise `id` from the row position when the record's
own `id` is falsy. -/
def rowToObject (sheetName : String) (header : List String) (idx : Nat)
    (row : List String) : List (String × String) :=
  let obj := buildObj [] header row
  if optTruthy (objLookup obj "id") then obj
  else objSet obj "id" (sheetName ++ "-" ++ decStr (idx + 1))

/-- `sheetValuesToObjects(values, sheetName)` from App.jsx: row 0 is the
header, each further row becomes a record. -/
def sheetValuesToObjects (values : List (List String)) (sheetName : String) :
    List (List (String × String)) :=
  match values with
  | [] => []
  | header :: rows => mapWithIdx (rowToObject sheetName header) 0 rows

/-! ## Calendar adapter (`googleService.addToCalendar`) -/

/-- The fields of the event argument that `addToCalendar` reads.  `none`
models an absent (`undefined`) field. -/
structure CalendarEventInput where
  title : Option String
  date : Option String
  time : Option String
  type : Option String
  relatedId : Option String

/-- One endpoint of the event resource: `dateTime` as milliseconds since the
epoch (the argument of `toISOString`), plus the named `timeZone`. -/
structure EventTime where
  dateTimeMs : Int
  timeZone : String
deriving DecidableEq

/-- The resource `addToCalendar` passes to `calendar.events.insert`.  `end`
is a Lean keyword, so the field is named `endTime`. -/
structure CalendarResource where
  summary : String
  description : String
  start : EventTime
  endTime : EventTime
deriving DecidableEq

/-- `addToCalendar(event)`.  `gapi` is the awaited `ensureGapiClient()`
outcome; `dateParse` stands for the environment's `new Date(string)` parser
(milliseconds since epoch) — the function's own logic (the validation, the
`"10:00"` fallback, the one-hour end, the fixed `Asia/Taipei` zone) is
concrete.  A thrown validation error is the `Except.error` case. -/
def addToCalendar (gapi : Except String Unit) (dateParse : String → Int)
    (event : CalendarEventInput) : Except String CalendarResource :=
  match gapi with
  | .error e => .error e
  | .ok _ =>
      if !(optTruthy event.title && optTruthy event.date) then
        .error "Event title 和 date 為必填"
      else
        let time := match event.time with
          | some t => if strTruthy t then t else "10:00"
          | none => "10:00"
        let startMs := dateParse (event.date.getD "" ++ " " ++ time)
        let description :=
          if optTruthy event.type then
            "類型：" ++ event.type.getD "" ++
              (if optTruthy event.relatedId then
                "\n關聯ID：" ++ event.relatedId.getD ""
              else "")
          else ""
        .ok { summary := event.title.getD ""
              description := description
              start := ⟨startMs, "Asia/Taipei"⟩
              endTime := ⟨startMs + 60 * 60 * 1000, "Asia/Taipei"⟩ }

/-- The `calendar.events.insert` requests `addToCalendar` issues: exactly one
(with the built resource) when it reaches the insert call, none when it
throws first. -/
def addToCalendarInserts (gapi : Except String Unit) (dateParse : String → Int)
    (event : CalendarEventInput) : List CalendarResource :=
  match addToCalendar gapi dateParse event with
  | .ok r => [r]
  | .error _ => []

/-! ## Drive upload (`googleService.uploadToDrive`) -/

/-- The parts of a `File` argument that `uploadToDrive` uses.  A JS value
without a callable `arrayBuffer` has `hasArrayBuffer := false`; `bytes` is
the `Uint8Array` content of a binary-capable file, `mime` its (possibly
empty) `type`. -/
structure JFile where
  hasArrayBuffer : Bool
  name : String
  mime : String
  bytes : List Nat

/-- A folder hit returned by the `drive.files.list` search. -/
structure DriveFileMeta where
  id : String
  name : String
deriving DecidableEq

/-- A Drive API call issued by `uploadToDrive`. -/
inductive DriveRequest where
  | filesList (q fields spaces : String)
  | filesCreate (name mimeType : String) (parents : List String)
      (fields : String)
  | multipartUpload (metadataJson contentType base64Data : String)
deriving DecidableEq

/-- Environment of one `uploadToDrive` run: the configured root folder id
(`none` when the env var is unset or empty, i.e. falsy), the files the
folder search returns, and the id Drive assigns to a newly created folder. -/
structure DriveEnv where
  rootFolderId : Option String
  listResult : List DriveFileMeta
  createdFolderId : String

/-- The mock result literal `{ success: true, url }`. -/
structure MockUploadResult where
  success : Bool
  url : String
deriving DecidableEq

/-- What `uploadToDrive` returns: the mock literal on the non-binary path,
or the upload call's result otherwise. -/
inductive UploadOutcome where
  | mock (r : MockUploadResult)
  | uploaded
deriving DecidableEq

/-- The base64 alphabet. -/
def base64Chars : List Char :=
  "ABCDEFGHIJKLMNOPQRSTUVWXYZabcdefghijklmnopqrstuvwxyz0123456789+/".data

/-- One base64 output character. -/
def b64c (n : Nat) : Char := base64Chars.getD n '='

/-- `btoa` of a byte list: standard base64 with `=` padding. -/
def base64Encode : List Nat → String
  | [] => ""
  | [a] =>
      ⟨[b64c (a / 4), b64c (a % 4 * 16), '=', '=']⟩
  | [a, b] =>
      ⟨[b64c (a / 4), b64c (a % 4 * 16 + b / 16), b64c (b % 16 * 4), '=']⟩
  | a :: b :: c :: rest =>
      ⟨[b64c (a / 4), b64c (a % 4 * 16 + b / 16), b64c (b % 16 * 4 + c / 64),
        b64c (c % 64)]⟩ ++ base64Encode rest

/-- `uploadToDrive(file, folderName)`.  `gapi` is the awaited bootstrap
outcome and `now` the value of `Date.now()`.  Returns the Drive API calls
performed and the result.  The non-binary path returns the mock literal with
the `mock-` URL and performs no Drive call; the binary path searches the
configured root for the folder, reuses or creates it, and issues the
multipart upload. -/
def uploadToDrive (gapi : Except String Unit) (env : DriveEnv) (now : Nat)
    (file : Option JFile) (folderName : String) :
    Except String (List DriveRequest × UploadOutcome) :=
  match gapi with
  | .error e => .error e
  | .ok _ =>
      match file with
      | none =>
          .ok ([], .mock ⟨true, "https://drive.google.com/file/d/mock-" ++ decStr now⟩)
      | some f =>
          if !f.hasArrayBuffer then
            .ok ([], .mock ⟨true, "https://drive.google.com/file/d/mock-" ++ decStr now⟩)
          else
            let searchStep : List DriveRequest × Option String :=
              match env.rootFolderId with
              | none => ([], none)
              | some root =>
                  let q := "mimeType='application/vnd.google-apps.folder'"
                    ++ " and '" ++ root ++ "' in parents"
                    ++ " and name='" ++ folderName ++ "'"
                    ++ " and trashed=false"
                  let listReq := DriveRequest.filesList q "files(id, name)" "drive"
                  match env.listResult with
                  | hit :: _ => ([listReq], some hit.id)
                  | [] =>
                      ([listReq,
                        .filesCreate
                          (if strTruthy folderName then folderName else "未命名專案")
                          "application/vnd.google-apps.folder" [root] "id, name"],
                       some env.createdFolderId)
            let parents : List String :=
              match searchStep.2 with
              | some fid => [fid]
              | none =>
                  match env.rootFolderId with
                  | some root => [root]
                  | none => []
            let metadataJson := jsonStringify
              (.obj [("name", .str f.name),
                     ("parents", .arr (parents.map JSValue.str))])
            let contentType :=
              if strTruthy f.mime then f.mime else "application/octet-stream"
            .ok (searchStep.1 ++
                  [.multipartUpload metadataJson contentType (base64Encode f.bytes)],
                 .uploaded)

/-! ## Bootstrap (`loadGapiScript` / `ensureGapiClient`) -/

/-- Module state touched by the bootstrap: the `gapiInited` flag, whether
`window.gapi` exists (the script has loaded), and counters for the script
tags appended and the `gapi.client.init` calls performed. -/
structure BootState where
  gapiInited : Bool
  windowGapi : Bool
  scriptLoads : Nat
  clientInits : Nat
deriving DecidableEq

/-- The initial module state: nothing loaded, nothing initialised. -/
def initialBoot : BootState := ⟨false, false, 0, 0⟩

/-- The synchronous head of one `ensureGapiClient()` call, up to its first
suspension: the `gapiInited` guard, the config check, and
`loadGapiScript`'s script-tag append (skipped when `window.gapi` already
exists).  Returns the new state and whether this call still has its
continuation (`gapi.load` + `gapi.client.init`) to run: `false` when the
guard short-circuited or the missing-config error was thrown. -/
def ensureGapiHead (configOk : Bool) (s : BootState) : BootState × Bool :=
  if s.gapiInited then (s, false)
  else if !configOk then (s, false)
  else if s.windowGapi then (s, true)
  else ({ s with scriptLoads := s.scriptLoads + 1 }, true)

/-- The script's `onload` handler: `window.gapi` becomes available. -/
def scriptOnload (s : BootState) : BootState := { s with windowGapi := true }

/-- The continuation of one call after its awaits resolve: `gapi.client.init`
runs and `gapiInited` is set. -/
def ensureGapiResume (s : BootState) : BootState :=
  { s with clientInits := s.clientInits + 1, gapiInited := true }

/-- One complete, non-overlapped `ensureGapiClient()` call with configuration
present. -/
def runEnsureGapi (s : BootState) : BootState :=
  let head := ensureGapiHead true s
  if head.2 then
    ensureGapiResume (if head.1.windowGapi then head.1 else scriptOnload head.1)
  else head.1

/-- Two sequential calls: the second starts after the first completes. -/
def runTwoSequential : BootState := runEnsureGapi (runEnsureGapi initialBoot)

/-- Two overlapping calls: both synchronous heads run before either script's
`onload` fires (the JS interleaving of two calls issued in the same task),
then each continuation resumes. -/
def runTwoOverlapping : BootState :=
  let headA := ensureGapiHead true initialBoot
  let headB := ensureGapiHead true headA.1
  let s := scriptOnload headB.1
  let s := if headA.2 then ensureGapiResume s else s
  if headB.2 then ensureGapiResume s else s

/-! ## `initClient` -/

/-- `initClient()`: awaits `ensureGapiClient()` and `ensureGisClient()`
(their outcomes are the two `Except` parameters), reads the module's
`accessToken`, and returns `!!accessToken`; the surrounding `try`/`catch`
turns every failure into `false`.  The model is a total `Bool`-valued
function: the JS function never rejects. -/
def initClient (gapi gis : Except String Unit) (accessToken : Option String) :
    Bool :=
  match gapi with
  | .error _ => false
  | .ok _ =>
      match gis with
      | .error _ => false
      | .ok _ => optTruthy accessToken

/-! ## Token-exchange endpoint (the Vercel `handler`) -/

/-- The request body fields the handler destructures; `none` is an absent
field (including the whole-body-absent case, via `req.body || {}`). -/
structure TokenBody where
  code : Option String
  codeVerifier : Option String
  redirectUri : Option String

/-- The parts of the incoming request the handler reads. -/
structure TokenReq where
  origin : Option String
  method : String
  body : Option TokenBody

/-- Server-side configuration: the two env credentials. -/
structure ServerEnv where
  clientId : Option String
  clientSecret : Option String

/-- Outcome of the provider `fetch`, when it is reached: a response with its
HTTP status, `ok` flag and the `error` field of its JSON body, or a thrown
network failure. -/
inductive ProviderOutcome where
  | resp (ok : Bool) (status : Nat) (errorField : Option String)
  | networkFailure (message : String)

/-- What the handler sends back: HTTP status, the `error` field of the JSON
body (when one is present), the `Access-Control-Allow-Origin` header, and
whether the provider was contacted before responding. -/
structure HandlerResult where
  status : Nat
  error : Option String
  acao : Option String
  contactedProvider : Bool
deriving DecidableEq

/-- The CORS allow-list of the endpoint. -/
def corsAllowlist : List String :=
  ["http://localhost:5173", "http://localhost:5174",
   "https://senteng-design-system.vercel.app"]

/-- The Vercel token-exchange `handler`. -/
def handler (env : ServerEnv) (provider : ProviderOutcome) (req : TokenReq) :
    HandlerResult :=
  let origin := req.origin.getD ""
  let acao := if corsAllowlist.contains origin then some origin else none
  if req.method == "OPTIONS" then ⟨204, none, acao, false⟩
  else if req.method != "POST" then ⟨405, some "method_not_allowed", acao, false⟩
  else
    let body := req.body.getD ⟨none, none, none⟩
    if !(optTruthy body.code && optTruthy body.codeVerifier
          && optTruthy body.redirectUri) then
      ⟨400, some "invalid_request", acao, false⟩
    else if !(optTruthy env.clientId && optTruthy env.clientSecret) then
      ⟨500, some "server_misconfigured", acao, false⟩
    else
      match provider with
      | .networkFailure _ => ⟨500, some "server_error", acao, true⟩
      | .resp ok status errorField =>
          if ok then ⟨200, none, acao, true⟩
          else ⟨status, errorField, acao, true⟩

/-! ## Statement material for claims C1 and C2 -/

/-- Primitive-serializable cell values: everything except arrays and objects
(those are JSON-stringified by the writer). -/
def isPrimitiveCell : JSValue → Bool
  | .arr _ => false
  | .obj _ => false
  | _ => true

/-- A record with every field value replaced by its written cell text. -/
def stringifyRecord (r : List (String × JSValue)) : List (String × String) :=
  r.map (fun p => (p.1, serializeCell (some p.2)))

/-- Two read-side records are equivalent when they map every key to the same
value (checked over both key sets, so it is decidable). -/
def recEquiv (r s : List (String × String)) : Prop :=
  (∀ p ∈ r, objLookup s p.1 = objLookup r p.1) ∧
  (∀ p ∈ s, objLookup r p.1 = objLookup s p.1)

/-- Set-equality of two collections of records, up to `recEquiv`. -/
def recSetEquiv (A B : List (List (String × String))) : Prop :=
  (∀ r ∈ A, ∃ t ∈ B, recEquiv r t) ∧ (∀ t ∈ B, ∃ r ∈ A, recEquiv r t)

/-- Claim C1 as stated: for a collection whose field values are all
primitive-serializable, writing with `syncToSheet` and reading the produced
grid back through `sheetValuesToObjects` yields a collection set-equal to the
projection of the original (values compared as their written cell text). -/
def claimC1Prop (sheetName : String) (d : List (List (String × JSValue))) :
    Prop :=
  (∀ r ∈ d, ∀ p ∈ r, isPrimitiveCell p.2 = true) →
    recSetEquiv (sheetValuesToObjects (sheetRows (d.map JSValue.obj)) sheetName)
      (d.map stringifyRecord)

/-- The truthy identifier a source row carries explicitly, if any: the `id`
cell its record receives from the header zip, unless that cell is falsy. -/
def rowExplicitId (header row : List String) : Option String :=
  match objLookup (buildObj [] header row) "id" with
  | some v => if strTruthy v then some v else none
  | none => none

/-- The identifier synthesised for the data row at index `idx`. -/
def synthId (sheetName : String) (idx : Nat) : String :=
  sheetName ++ "-" ++ decStr (idx + 1)

/-- The identifiers of a collection of read-side records. -/
def recordIds (recs : List (List (String × String))) : List String :=
  recs.map (fun r => (objLookup r "id").getD "")

/-- Claim C2 as stated: every produced record whose source row lacked a
truthy explicit identifier carries exactly one `id` binding, holding the
position-synthesised identifier — and the identifiers of the whole produced
collection are pairwise distinct. -/
def claimC2Prop (values : List (List String)) (sheetName : String) : Prop :=
  (∀ i (hi : i < values.tail.length),
      rowExplicitId (values.headD []) (values.tail.get ⟨i, hi⟩) = none →
        ((sheetValuesToObjects values sheetName).get? i).any
          (fun r => ((r.map Prod.fst).count "id" == 1) &&
            (objLookup r "id" == some (synthId sheetName i))) = true) ∧
  (recordIds (sheetValuesToObjects values sheetName)).Nodup

instance (r s : List (String × String)) : Decidable (recEquiv r s) := by
  unfold recEquiv; exact inferInstance

instance (A B : List (List (String × String))) : Decidable (recSetEquiv A B) := by
  unfold recSetEquiv; exact inferInstance

instance (sheetName : String) (d : List (List (String × JSValue))) :
    Decidable (claimC1Prop sheetName d) := by
  unfold claimC1Prop; exact inferInstance

instance (values : List (List String)) (sheetName : String) :
    Decidable (claimC2Prop values sheetName) := by
  unfold claimC2Prop; exact inferInstance

/-! ## Helper lemmas about the mapper's building blocks -/

theorem mapWithIdx_length (f : Nat → α → β) :
    ∀ (i : Nat) (l : List α), (mapWithIdx f i l).length = l.length := by
  intro i l
  induction l generalizing i with
  | nil => rfl
  | cons a as ih => simp [mapWithIdx, ih]

theorem mapWithIdx_get? (f : Nat → α → β) :
    ∀ (l : List α) (i j : Nat),
      (mapWithIdx f i l).get? j = (l.get? j).map (f (i + j)) := by
  intro l
  induction l with
  | nil => intro i j; cases j <;> rfl
  | cons a as ih =>
    intro i j
    cases j with
    | zero => rfl
    | succ j =>
      have := ih (i + 1) j
      simpa [mapWithIdx, Nat.add_assoc, Nat.add_comm 1 j] using this

theorem mapWithIdx_map (g : α → β) (f : Nat → β → γ) :
    ∀ (i : Nat) (l : List α),
      mapWithIdx f i (l.map g) = mapWithIdx (fun n a => f n (g a)) i l := by
  intro i l
  induction l generalizing i with
  | nil => rfl
  | cons a as ih => simp [mapWithIdx, ih]

theorem mapWithIdx_eq_map (f : Nat → α → β) (g : α → β) :
    ∀ (l : List α) (i : Nat), (∀ n a, a ∈ l → f n a = g a) →
      mapWithIdx f i l = l.map g := by
  intro l
  induction l with
  | nil => intro i _; rfl
  | cons a as ih =>
    intro i h
    simp only [mapWithIdx, List.map_cons]
    exact congrArg₂ _ (h i a (List.mem_cons_self a as))
      (ih (i + 1) fun n b hb => h n b (List.mem_cons_of_mem a hb))

theorem map_mapWithIdx (g : β → γ) (f : Nat → α → β) :
    ∀ (i : Nat) (l : List α),
      (mapWithIdx f i l).map g = mapWithIdx (fun n a => g (f n a)) i l := by
  intro i l
  induction l generalizing i with
  | nil => rfl
  | cons a as ih => simp [mapWithIdx, ih]

theorem nodup_mapWithIdx (f : Nat → α → β) (l : List α)
    (h : ∀ i j (hi : i < l.length) (hj : j < l.length), i ≠ j →
      f i l[i] ≠ f j l[j]) : (mapWithIdx f 0 l).Nodup := by
  rw [List.nodup_iff_injective_get]
  rintro ⟨a, ha⟩ ⟨b, hb⟩ hab
  have ha' : a < l.length := by rw [← mapWithIdx_length f 0 l]; exact ha
  have hb' : b < l.length := by rw [← mapWithIdx_length f 0 l]; exact hb
  have ea : (mapWithIdx f 0 l).get? a = some (f a l[a]) := by
    rw [mapWithIdx_get?, List.get?_eq_getElem?, List.getElem?_eq_getElem ha']
    simp
  have eb : (mapWithIdx f 0 l).get? b = some (f b l[b]) := by
    rw [mapWithIdx_get?, List.get?_eq_getElem?, List.getElem?_eq_getElem hb']
    simp
  have ea' : (mapWithIdx f 0 l).get? a = some ((mapWithIdx f 0 l).get ⟨a, ha⟩) :=
    List.get?_eq_get ha
  have eb' : (mapWithIdx f 0 l).get? b = some ((mapWithIdx f 0 l).get ⟨b, hb⟩) :=
    List.get?_eq_get hb
  by_contra hne
  have hab' : a ≠ b := fun e => hne (Fin.ext e)
  apply h a b ha' hb' hab'
  have : some (f a l[a]) = some (f b l[b]) := by
    rw [← ea, ← eb, ea', eb', hab]
  exact Option.some.inj this

theorem mem_firstDedupAux :
    ∀ (l seen : List String) (k : String),
      k ∈ firstDedupAux seen l ↔ (k ∈ l ∧ k ∉ seen) := by
  intro l
  induction l with
  | nil => simp [firstDedupAux]
  | cons a as ih =>
    intro seen k
    simp only [firstDedupAux]
    by_cases h : seen.contains a = true
    · have hmem : a ∈ seen := List.elem_iff.mp h
      rw [if_pos h, ih]
      constructor
      · rintro ⟨h1, h2⟩
        exact ⟨List.mem_cons_of_mem a h1, h2⟩
      · rintro ⟨h1, h2⟩
        rcases List.mem_cons.mp h1 with rfl | h1
        · exact absurd hmem h2
        · exact ⟨h1, h2⟩
    · rw [if_neg h]
      have hnot : a ∉ seen := fun hm => h (List.elem_iff.mpr hm)
      constructor
      · intro hk
        rcases List.mem_cons.mp hk with rfl | hk
        · exact ⟨List.mem_cons_self _ _, hnot⟩
        · rcases (ih (a :: seen) k).mp hk with ⟨h1, h2⟩
          exact ⟨List.mem_cons_of_mem a h1,
            fun hs => h2 (List.mem_cons_of_mem a hs)⟩
      · rintro ⟨h1, h2⟩
        rcases List.mem_cons.mp h1 with rfl | h1
        · exact List.mem_cons_self _ _
        · by_cases hka : k = a
          · subst hka; exact List.mem_cons_self _ _
          · exact List.mem_cons_of_mem a ((ih (a :: seen) k).mpr
              ⟨h1, fun hs => (List.mem_cons.mp hs).elim hka h2⟩)

theorem nodup_firstDedupAux :
    ∀ (l seen : List String), (firstDedupAux seen l).Nodup := by
  intro l
  induction l with
  | nil => intro seen; exact List.nodup_nil
  | cons a as ih =>
    intro seen
    simp only [firstDedupAux]
    by_cases h : seen.contains a = true
    · rw [if_pos h]; exact ih seen
    · rw [if_neg h]
      refine List.Nodup.cons ?_ (ih (a :: seen))
      intro hmem
      exact ((mem_firstDedupAux as (a :: seen) a).mp hmem).2
        (List.mem_cons_self _ _)

theorem mem_allKeysOf (values : List JSValue) (k : String) :
    k ∈ allKeysOf values ↔ ∃ item ∈ values, k ∈ jsKeys item := by
  unfold allKeysOf
  rw [mem_firstDedupAux]
  simp only [List.not_mem_nil, not_false_iff, and_true, List.mem_flatten,
    List.mem_map]
  constructor
  · rintro ⟨l, ⟨item, hitem, rfl⟩, hk⟩
    exact ⟨item, hitem, hk⟩
  · rintro ⟨item, hitem, hk⟩
    exact ⟨jsKeys item, ⟨item, hitem, rfl⟩, hk⟩

theorem nodup_allKeysOf (values : List JSValue) : (allKeysOf values).Nodup :=
  nodup_firstDedupAux _ _

theorem objHasKey_iff (obj : List (String × String)) (k : String) :
    obj.any (fun p => p.1 == k) = true ↔ k ∈ obj.map Prod.fst := by
  rw [List.any_eq_true]
  constructor
  · rintro ⟨p, hp, he⟩
    exact List.mem_map.mpr ⟨p, hp, by simpa using he⟩
  · intro hm
    rcases List.mem_map.mp hm with ⟨p, hp, rfl⟩
    exact ⟨p, hp, by simp⟩

theorem objSet_of_not_mem (obj : List (String × String)) (k v : String)
    (h : k ∉ obj.map Prod.fst) : objSet obj k v = obj ++ [(k, v)] := by
  unfold objSet
  rw [if_neg (fun hc => h ((objHasKey_iff obj k).mp hc))]

theorem objLookup_append_right (obj₁ obj₂ : List (String × String))
    (k : String) (h : k ∉ obj₁.map Prod.fst) :
    objLookup (obj₁ ++ obj₂) k = objLookup obj₂ k := by
  unfold objLookup
  rw [List.find?_append]
  have : obj₁.find? (fun p => p.1 == k) = none := by
    rw [List.find?_eq_none]
    intro p hp hpk
    exact h (List.mem_map.mpr ⟨p, hp, by simpa using hpk⟩)
  rw [this, Option.none_or]

theorem objLookup_objSet_self (obj : List (String × String)) (k v : String) :
    objLookup (objSet obj k v) k = some v := by
  unfold objSet
  by_cases h : obj.any (fun p => p.1 == k) = true
  · rw [if_pos h]
    unfold objLookup
    rw [List.find?_map]
    have hpred : ((fun p : String × String => p.1 == k) ∘
        (fun p => if p.1 == k then (p.1, v) else p)) =
        fun p : String × String => p.1 == k := by
      funext p
      by_cases hp : p.1 = k <;> simp [hp]
    rw [hpred]
    rcases List.any_eq_true.mp h with ⟨p, hp, hpk⟩
    have hsome : (obj.find? (fun p => p.1 == k)).isSome = true := by
      rw [List.find?_isSome]
      exact ⟨p, hp, hpk⟩
    rcases Option.isSome_iff_exists.mp hsome with ⟨q, hq⟩
    have hqk := List.find?_some hq
    rw [hq]
    have hq1 : q.1 = k := by simpa using hqk
    simp [hq1]
  · rw [if_neg h]
    have hnot : k ∉ obj.map Prod.fst := fun hm => h ((objHasKey_iff obj k).mpr hm)
    rw [objLookup_append_right _ _ _ hnot]
    unfold objLookup
    simp

theorem objSet_keys (obj : List (String × String)) (k v : String) :
    (objSet obj k v).map Prod.fst =
      if obj.any (fun p => p.1 == k) = true then obj.map Prod.fst
      else obj.map Prod.fst ++ [k] := by
  unfold objSet
  by_cases h : obj.any (fun p => p.1 == k) = true
  · rw [if_pos h, if_pos h, List.map_map]
    apply List.map_congr_left
    intro p _
    by_cases hp : p.1 = k <;> simp [hp]
  · rw [if_neg h, if_neg h, List.map_append]
    rfl

theorem buildObj_keys_nodup :
    ∀ (keys cells : List String) (obj : List (String × String)),
      (obj.map Prod.fst).Nodup → ((buildObj obj keys cells).map Prod.fst).Nodup := by
  intro keys
  induction keys with
  | nil => intro cells obj h; exact h
  | cons a as ih =>
    intro cells obj h
    simp only [buildObj]
    by_cases ha : a = ""
    · rw [if_pos ha]; exact ih _ _ h
    · rw [if_neg ha]
      apply ih
      rw [objSet_keys]
      by_cases hc : obj.any (fun p => p.1 == a) = true
      · rw [if_pos hc]; exact h
      · rw [if_neg hc]
        have hnm : a ∉ obj.map Prod.fst := fun hm => hc ((objHasKey_iff obj a).mpr hm)
        simp [List.nodup_append, h, hnm]

theorem buildObj_map_eq :
    ∀ (K : List String) (f : String → String) (obj : List (String × String)),
      K.Nodup → (∀ k ∈ K, k ≠ "") → (∀ k ∈ K, k ∉ obj.map Prod.fst) →
      buildObj obj K (K.map f) = obj ++ K.map (fun k => (k, f k)) := by
  intro K
  induction K with
  | nil => intro f obj _ _ _; simp [buildObj]
  | cons a as ih =>
    intro f obj hnd hne hdis
    have ha : a ≠ "" := hne a (List.mem_cons_self a as)
    have hna : a ∉ obj.map Prod.fst := hdis a (List.mem_cons_self a as)
    simp only [List.map_cons, buildObj, if_neg ha, List.headD_cons, List.tail_cons]
    rw [objSet_of_not_mem obj a (f a) hna]
    rw [ih f (obj ++ [(a, f a)]) (List.Nodup.of_cons hnd)
      (fun k hk => hne k (List.mem_cons_of_mem a hk))
      (fun k hk => ?_)]
    · rw [List.append_assoc]; rfl
    · rw [List.map_append]
      intro hm
      rcases List.mem_append.mp hm with hm | hm
      · exact hdis k (List.mem_cons_of_mem a hk) hm
      · have hka : k = a := by simpa using hm
        subst hka
        exact (List.nodup_cons.mp hnd).1 hk

theorem objLookup_keyed_map (f : String → String) :
    ∀ (K : List String) (k : String), k ∈ K →
      objLookup (K.map (fun k' => (k', f k'))) k = some (f k) := by
  intro K
  induction K with
  | nil => intro k hk; cases hk
  | cons a as ih =>
    intro k hk
    simp only [List.map_cons]
    unfold objLookup
    rw [List.find?_cons]
    by_cases hak : (a == k) = true
    · have : a = k := eq_of_beq hak
      subst this
      simp
    · have : ((a, f a).1 == k) = false := by simpa using hak
      rw [this]
      rcases List.mem_cons.mp hk with rfl | hk
      · simp at hak
      · exact ih k hk

/-! ## Claims C3 and C10: `syncToSheet` on empty and non-array input -/

/-- C3: calling `syncToSheet` with an empty collection (after a successful
bootstrap) issues exactly one Sheets call — clearing the target `A:Z` range —
and writes nothing: no update call is made, so no data rows and no header row
are written, and the literal success result is returned. -/
theorem C3_syncToSheet_empty_clears (sheetName : String) :
    syncToSheet (.ok ()) sheetName (.arr []) =
      .ok ([.clear (sheetName ++ "!A:Z")], .success) := rfl

/-- C10: every non-array argument is treated as the empty collection: the
sheet's `A:Z` range is cleared, nothing is written, and the success result is
returned — so passing `null`, `undefined` or a plain object erases all data
in the target sheet. -/
theorem C10_syncToSheet_nonarray (sheetName : String) (v : JSValue)
    (h : ∀ xs, v ≠ .arr xs) :
    syncToSheet (.ok ()) sheetName v =
      .ok ([.clear (sheetName ++ "!A:Z")], .success) := by
  cases v <;> first | rfl | exact absurd rfl (h _)

/-- C10 witness: `syncToSheet` applied to `null` clears and reports success. -/
theorem C10_witness :
    syncToSheet (.ok ()) "projects" .null =
      .ok ([.clear ("projects" ++ "!A:Z")], .success) :=
  C10_syncToSheet_nonarray "projects" .null (fun _ h => JSValue.noConfusion h)

/-! ## Claims C4 and C5: `addToCalendar` -/

/-- C4: for every event whose title is missing or whose date is missing
(falsy), `addToCalendar` issues no `calendar.events.insert` request, whatever
the bootstrap outcome; and when the bootstrap succeeded it fails with exactly
the validation error the code throws. -/
theorem C4_addToCalendar_validation (gapi : Except String Unit)
    (dateParse : String → Int) (e : CalendarEventInput)
    (h : optTruthy e.title = false ∨ optTruthy e.date = false) :
    addToCalendarInserts gapi dateParse e = [] ∧
      (gapi = .ok () → addToCalendar gapi dateParse e =
        .error "Event title 和 date 為必填") := by
  have hcond : (optTruthy e.title && optTruthy e.date) = false := by
    rcases h with h | h <;> simp [h]
  rcases gapi with e' | u
  · exact ⟨rfl, fun hc => nomatch hc⟩
  · exact ⟨by simp [addToCalendarInserts, addToCalendar, hcond],
      fun _ => by simp [addToCalendar, hcond]⟩

/-- C4 witness: an event with a date but no title is rejected with the
validation error and no insert request. -/
theorem C4_witness :
    addToCalendarInserts (.ok ()) (fun _ => 0)
        ⟨none, some "2025-06-01", none, none, none⟩ = [] ∧
      addToCalendar (.ok ()) (fun _ => 0)
          ⟨none, some "2025-06-01", none, none, none⟩ =
        .error "Event title 和 date 為必填" := by
  have h := C4_addToCalendar_validation (.ok ()) (fun _ => 0)
    ⟨none, some "2025-06-01", none, none, none⟩ (Or.inl rfl)
  exact ⟨h.1, h.2 rfl⟩

/-- C5: for the event `title="丈量"`, `date="2025-06-01"` with no time,
`addToCalendar` defaults the time to the fixed `"10:00"` fallback — the start
is the parse of `"2025-06-01 10:00"` — and the end is exactly one hour
(3 600 000 ms) after the computed start, both endpoints carrying the fixed
named zone `Asia/Taipei`. -/
theorem C5_addToCalendar_default_time (dateParse : String → Int) :
    addToCalendar (.ok ()) dateParse
        ⟨some "丈量", some "2025-06-01", none, none, none⟩ =
      .ok { summary := "丈量", description := ""
            start := ⟨dateParse "2025-06-01 10:00", "Asia/Taipei"⟩
            endTime := ⟨dateParse "2025-06-01 10:00" + 60 * 60 * 1000,
              "Asia/Taipei"⟩ } := rfl

/-! ## Claim C6: `uploadToDrive` mock path -/

/-- C6: for every input lacking binary-read capability (absent, or without a
callable `arrayBuffer`), `uploadToDrive` issues no Drive request at all and
returns the mock success result whose URL is the fixed
`https://drive.google.com/file/d/mock-` prefix followed by the timestamp. -/
theorem C6_uploadToDrive_mock (env : DriveEnv) (now : Nat)
    (file : Option JFile) (folderName : String)
    (h : file = none ∨ ∃ f, file = some f ∧ f.hasArrayBuffer = false) :
    uploadToDrive (.ok ()) env now file folderName =
      .ok ([], .mock ⟨true,
        "https://drive.google.com/file/d/mock-" ++ decStr now⟩) := by
  rcases h with h | ⟨f, rfl, hf⟩
  · subst h; rfl
  · simp [uploadToDrive, hf]

/-- C6 witness: a file object without `arrayBuffer` gets the mock result and
no Drive request. -/
theorem C6_witness :
    uploadToDrive (.ok ()) ⟨some "root", [], "newid"⟩ 5
        (some ⟨false, "quote.pdf", "application/pdf", []⟩) "報價單" =
      .ok ([], .mock ⟨true,
        "https://drive.google.com/file/d/mock-" ++ decStr 5⟩) :=
  C6_uploadToDrive_mock ⟨some "root", [], "newid"⟩ 5
    (some ⟨false, "quote.pdf", "application/pdf", []⟩) "報價單"
    (Or.inr ⟨_, rfl, rfl⟩)

/-! ## Claim C7: bootstrap re-entry -/

/-- C7 counterexample: two overlapping `ensureGapiClient()` calls — both
synchronous heads running before either completes — append two script tags
and call `gapi.client.init` twice, because the `gapiInited` guard is only set
after initialisation completes; so the claimed single load / single init is
false. -/
theorem C7_counterexample :
    runTwoOverlapping.scriptLoads = 2 ∧ runTwoOverlapping.clientInits = 2 ∧
      ¬(runTwoOverlapping.scriptLoads = 1 ∧
        runTwoOverlapping.clientInits = 1) := by
  decide

/-- C7 amended: two sequential calls — the second starting after the first
completes — perform exactly one script load and one client-init, the second
call short-circuiting on the `gapiInited` guard. -/
theorem C7_sequential_single_init :
    runTwoSequential.scriptLoads = 1 ∧ runTwoSequential.clientInits = 1 ∧
      runTwoSequential.gapiInited = true := by
  decide

/-! ## Claim C8: `initClient` never throws -/

/-- C8: `initClient` is total — every outcome of the two bootstrap steps maps
to a boolean — and equals "both steps succeeded and the module access token
is truthy"; in particular any failure yields `false` (not signed in) rather
than an error. -/
theorem C8_initClient_total (gapi gis : Except String Unit)
    (accessToken : Option String) :
    initClient gapi gis accessToken =
      (gapi.isOk && gis.isOk && optTruthy accessToken) := by
  cases gapi <;> cases gis <;> rfl

/-! ## Claim C9: token-exchange endpoint validation -/

/-- C9: for every `POST` request, a body missing (or empty in) any of `code`,
`codeVerifier`, `redirectUri` gets HTTP 400 with `error: "invalid_request"`
and the provider is never contacted; when all three fields are present but a
server credential is not configured, the response is HTTP 500, again without
contacting the provider. -/
theorem C9_handler_validation (env : ServerEnv) (provider : ProviderOutcome)
    (req : TokenReq) (hm : req.method = "POST") :
    ((optTruthy (req.body.getD ⟨none, none, none⟩).code = false ∨
      optTruthy (req.body.getD ⟨none, none, none⟩).codeVerifier = false ∨
      optTruthy (req.body.getD ⟨none, none, none⟩).redirectUri = false) →
      (handler env provider req).status = 400 ∧
      (handler env provider req).error = some "invalid_request" ∧
      (handler env provider req).contactedProvider = false) ∧
    ((optTruthy (req.body.getD ⟨none, none, none⟩).code = true ∧
      optTruthy (req.body.getD ⟨none, none, none⟩).codeVerifier = true ∧
      optTruthy (req.body.getD ⟨none, none, none⟩).redirectUri = true) →
      (optTruthy env.clientId = false ∨ optTruthy env.clientSecret = false) →
      (handler env provider req).status = 500 ∧
      (handler env provider req).contactedProvider = false) := by
  constructor
  · intro h
    have hc : (optTruthy (req.body.getD ⟨none, none, none⟩).code &&
        optTruthy (req.body.getD ⟨none, none, none⟩).codeVerifier &&
        optTruthy (req.body.getD ⟨none, none, none⟩).redirectUri) = false := by
      rcases h with h | h | h <;> simp [h]
    simp [handler, hm, hc]
  · intro h hcred
    have hc : (optTruthy (req.body.getD ⟨none, none, none⟩).code &&
        optTruthy (req.body.getD ⟨none, none, none⟩).codeVerifier &&
        optTruthy (req.body.getD ⟨none, none, none⟩).redirectUri) = true := by
      simp [h.1, h.2.1, h.2.2]
    have hc2 : (optTruthy env.clientId && optTruthy env.clientSecret) = false := by
      rcases hcred with h' | h' <;> simp [h']
    simp [handler, hm, hc, hc2]

/-- C9 witness: a `POST` with no body gets 400/`invalid_request` untouched by
the provider, and a well-formed `POST` against a server missing its client id
gets 500. -/
theorem C9_witness :
    (handler ⟨none, none⟩ (.resp true 200 none) ⟨none, "POST", none⟩).status
        = 400 ∧
      (handler ⟨none, none⟩ (.resp true 200 none) ⟨none, "POST", none⟩).error
        = some "invalid_request" ∧
      (handler ⟨none, none⟩ (.resp true 200 none)
          ⟨none, "POST", none⟩).contactedProvider = false ∧
      (handler ⟨none, some "secret"⟩ (.resp true 200 none)
          ⟨none, "POST", some ⟨some "c", some "v", some "r"⟩⟩).status = 500 := by
  have h₁ := (C9_handler_validation ⟨none, none⟩ (.resp true 200 none)
    ⟨none, "POST", none⟩ rfl).1 (Or.inl rfl)
  have h₂ := (C9_handler_validation ⟨none, some "secret"⟩ (.resp true 200 none)
    ⟨none, "POST", some ⟨some "c", some "v", some "r"⟩⟩ rfl).2
    ⟨rfl, rfl, rfl⟩ (Or.inl rfl)
  exact ⟨h₁.1, h₁.2.1, h₁.2.2, h₂.1⟩

/-! ## Claim C1: write/read round trip -/

/-- C1 counterexample: the round-trip law fails as stated.  For the
single-record collection `[{name: "a"}]` — all values primitive — the read
back collection is `[{name: "a", id: "projects-1"}]`: the reader synthesises
an `id` the original never had, so no projection of the original is set-equal
to the result. -/
theorem C1_counterexample :
    ¬ claimC1Prop "projects" [[("name", .str "a")]] := by
  decide

/-- C1 amended: for a non-empty collection of records with duplicate-free,
non-empty keys, each carrying an `id` whose written cell text is non-empty,
writing with `syncToSheet` (which clears, then writes the header row and one
row per record) and reading the grid back through `sheetValuesToObjects`
yields exactly the original records completed over the union of all keys,
with every value replaced by its written cell text (non-scalars as their
JSON text, null/absent as `""`). -/
theorem C1_roundtrip_completion (sheetName : String)
    (d : List (List (String × JSValue)))
    (hne : d ≠ [])
    (hnodup : ∀ r ∈ d, (r.map Prod.fst).Nodup)
    (hkeys : ∀ r ∈ d, ∀ k ∈ r.map Prod.fst, k ≠ "")
    (hid : ∀ r ∈ d, strTruthy (serializeCell (jsGet (.obj r) "id")) = true) :
    syncToSheet (.ok ()) sheetName (.arr (d.map JSValue.obj)) =
      .ok ([.clear (sheetName ++ "!A:Z"),
            .update (sheetName ++ "!A1") "RAW" (sheetRows (d.map JSValue.obj))],
           .updateResult (sheetRows (d.map JSValue.obj))) ∧
    sheetValuesToObjects (sheetRows (d.map JSValue.obj)) sheetName =
      d.map (fun r => projectRecord (allKeysOf (d.map JSValue.obj)) (.obj r)) := by
  constructor
  · cases d with
    | nil => exact absurd rfl hne
    | cons r rs => rfl
  · have Knd : (allKeysOf (d.map JSValue.obj)).Nodup := nodup_allKeysOf _
    have Kne : ∀ k ∈ allKeysOf (d.map JSValue.obj), k ≠ "" := by
      intro k hk
      rcases (mem_allKeysOf _ k).mp hk with ⟨item, hitem, hkitem⟩
      rcases List.mem_map.mp hitem with ⟨r, hr, rfl⟩
      exact hkeys r hr k (by simpa [jsKeys] using hkitem)
    show mapWithIdx (rowToObject sheetName (allKeysOf (d.map JSValue.obj))) 0
        ((d.map JSValue.obj).map (fun item =>
          (allKeysOf (d.map JSValue.obj)).map
            (fun key => serializeCell (jsGet item key)))) = _
    rw [List.map_map, mapWithIdx_map]
    apply mapWithIdx_eq_map
    intro n r hr
    have hidr := hid r hr
    have hidmem : "id" ∈ r.map Prod.fst := by
      rcases hfind : r.find? (fun p => p.1 == "id") with _ | p
      · exfalso
        have hnone : jsGet (.obj r) "id" = none := by simp [jsGet, hfind]
        rw [hnone] at hidr
        simp [serializeCell, strTruthy] at hidr
      · have hp := List.find?_some hfind
        have hpm := List.mem_of_find?_eq_some hfind
        have hp1 : p.1 = "id" := by simpa using hp
        exact hp1 ▸ List.mem_map.mpr ⟨p, hpm, rfl⟩
    have hidK : "id" ∈ allKeysOf (d.map JSValue.obj) :=
      (mem_allKeysOf _ _).mpr ⟨.obj r, List.mem_map.mpr ⟨r, hr, rfl⟩,
        by simpa [jsKeys] using hidmem⟩
    show rowToObject sheetName (allKeysOf (d.map JSValue.obj)) n
        ((allKeysOf (d.map JSValue.obj)).map
          (fun key => serializeCell (jsGet (JSValue.obj r) key))) =
      projectRecord (allKeysOf (d.map JSValue.obj)) (JSValue.obj r)
    unfold rowToObject
    rw [buildObj_map_eq _ _ [] Knd Kne (by simp)]
    simp only [List.nil_append]
    rw [objLookup_keyed_map _ _ _ hidK]
    simp only [optTruthy, hidr, if_true]
    rfl

/-- C1 witness: a two-record collection with truthy ids and duplicate-free
non-empty keys satisfies the amended round-trip law. -/
theorem C1_witness :
    syncToSheet (.ok ()) "projects"
        (.arr ([[("id", JSValue.str "p1"), ("name", JSValue.str "甲")],
                [("id", JSValue.str "p2"), ("name", JSValue.str "乙")]].map
          JSValue.obj)) =
      .ok ([.clear ("projects" ++ "!A:Z"),
            .update ("projects" ++ "!A1") "RAW"
              (sheetRows ([[("id", JSValue.str "p1"), ("name", JSValue.str "甲")],
                           [("id", JSValue.str "p2"), ("name", JSValue.str "乙")]].map
                JSValue.obj))],
           .updateResult
              (sheetRows ([[("id", JSValue.str "p1"), ("name", JSValue.str "甲")],
                           [("id", JSValue.str "p2"), ("name", JSValue.str "乙")]].map
                JSValue.obj))) ∧
    sheetValuesToObjects
        (sheetRows ([[("id", JSValue.str "p1"), ("name", JSValue.str "甲")],
                     [("id", JSValue.str "p2"), ("name", JSValue.str "乙")]].map
          JSValue.obj)) "projects" =
      [[("id", JSValue.str "p1"), ("name", JSValue.str "甲")],
       [("id", JSValue.str "p2"), ("name", JSValue.str "乙")]].map
        (fun r => projectRecord
          (allKeysOf ([[("id", JSValue.str "p1"), ("name", JSValue.str "甲")],
                       [("id", JSValue.str "p2"), ("name", JSValue.str "乙")]].map
            JSValue.obj)) (.obj r)) :=
  C1_roundtrip_completion "projects"
    [[("id", JSValue.str "p1"), ("name", JSValue.str "甲")],
     [("id", JSValue.str "p2"), ("name", JSValue.str "乙")]]
    (List.cons_ne_nil _ _) (by decide) (by decide) (by decide)

/-! ## Claim C2: identifier synthesis and uniqueness -/

theorem synthId_inj (s : String) {i j : Nat} (h : synthId s i = synthId s j) :
    i = j := by
  unfold synthId at h
  have hdata := congrArg String.data h
  simp only [String.data_append] at hdata
  have h₂ : (decStr (i + 1)).data = (decStr (j + 1)).data := by
    simpa [List.append_assoc] using hdata
  have := decStr_injective (String.ext h₂)
  omega

theorem rowExplicitId_eq_none_iff (header row : List String) :
    rowExplicitId header row = none ↔
      optTruthy (objLookup (buildObj [] header row) "id") = false := by
  unfold rowExplicitId
  rcases h : objLookup (buildObj [] header row) "id" with _ | v
  · simp [optTruthy]
  · by_cases hv : strTruthy v = true <;> simp [optTruthy, hv]

theorem objLookup_rowToObject_id (s : String) (header : List String) (i : Nat)
    (row : List String) :
    objLookup (rowToObject s header i row) "id" =
      some ((rowExplicitId header row).getD (synthId s i)) := by
  unfold rowToObject rowExplicitId
  rcases h : objLookup (buildObj [] header row) "id" with _ | v
  · simp [h, optTruthy, objLookup_objSet_self, synthId]
  · by_cases hv : strTruthy v = true
    · simp [h, optTruthy, hv]
    · have hv' : strTruthy v = false := by simpa using hv
      simp [h, optTruthy, hv', objLookup_objSet_self, synthId]

theorem count_id_rowToObject (s : String) (header : List String) (i : Nat)
    (row : List String) (h : rowExplicitId header row = none) :
    ((rowToObject s header i row).map Prod.fst).count "id" = 1 := by
  have hfalse := (rowExplicitId_eq_none_iff header row).mp h
  unfold rowToObject
  simp only [hfalse, Bool.false_eq_true, if_false]
  rw [objSet_keys]
  have hnodup : ((buildObj [] header row).map Prod.fst).Nodup :=
    buildObj_keys_nodup header row [] List.nodup_nil
  by_cases hc : (buildObj [] header row).any (fun p => p.1 == "id") = true
  · rw [if_pos hc]
    exact List.count_eq_one_of_mem hnodup
      ((objHasKey_iff (buildObj [] header row) "id").mp hc)
  · rw [if_neg hc]
    have hnm : "id" ∉ (buildObj [] header row).map Prod.fst :=
      fun hm => hc ((objHasKey_iff _ "id").mpr hm)
    rw [List.count_append, List.count_eq_zero_of_not_mem hnm]
    rfl

/-- C2 counterexample: the uniqueness half of the claim fails as stated.
Reading the grid with header `["id"]` and two data rows both carrying the
explicit identifier `"x"` produces two records with the same identifier, so
the identifiers of a single read are not pairwise distinct. -/
theorem C2_counterexample : ¬ claimC2Prop [["id"], ["x"], ["x"]] "S" := by
  decide

/-- C2 amended: every record whose source row lacks a truthy explicit
identifier receives exactly one `id` binding, holding the deterministic
position-synthesised identifier `sheetName-(idx+1)`; and the identifiers of
the whole read are pairwise distinct provided the explicit identifiers are
pairwise distinct and none of them collides with a synthesised identifier
(the code enforces neither side condition). -/
theorem C2_id_synthesis (sheetName : String) (header : List String)
    (rows : List (List String))
    (h₁ : ∀ i (hi : i < rows.length), ∀ j (hj : j < rows.length), i ≠ j →
      (rowExplicitId header rows[i]).isSome = true →
      rowExplicitId header rows[i] ≠ rowExplicitId header rows[j])
    (h₂ : ∀ i (hi : i < rows.length), ∀ j (hj : j < rows.length),
      rowExplicitId header rows[j] = none →
      rowExplicitId header rows[i] ≠ some (synthId sheetName j)) :
    (∀ i (hi : i < rows.length), rowExplicitId header rows[i] = none →
      (sheetValuesToObjects (header :: rows) sheetName).get? i =
        some (rowToObject sheetName header i rows[i]) ∧
      ((rowToObject sheetName header i rows[i]).map Prod.fst).count "id" = 1 ∧
      objLookup (rowToObject sheetName header i rows[i]) "id" =
        some (synthId sheetName i)) ∧
    (recordIds (sheetValuesToObjects (header :: rows) sheetName)).Nodup := by
  constructor
  · intro i hi hnone
    refine ⟨?_, count_id_rowToObject sheetName header i rows[i] hnone, ?_⟩
    · show (mapWithIdx (rowToObject sheetName header) 0 rows).get? i = _
      rw [mapWithIdx_get? (rowToObject sheetName header) rows 0 i,
        List.get?_eq_getElem?, List.getElem?_eq_getElem hi]
      simp
    · rw [objLookup_rowToObject_id, hnone]
      rfl
  · show (recordIds (mapWithIdx (rowToObject sheetName header) 0 rows)).Nodup
    unfold recordIds
    rw [map_mapWithIdx]
    apply nodup_mapWithIdx
    intro i j hi hj hij heq
    rw [objLookup_rowToObject_id, objLookup_rowToObject_id] at heq
    simp only [Option.getD_some] at heq
    rcases hei : rowExplicitId header rows[i] with _ | v <;>
      rcases hej : rowExplicitId header rows[j] with _ | w <;>
      rw [hei, hej] at heq <;>
      simp only [Option.getD_none, Option.getD_some] at heq
    · exact hij (synthId_inj sheetName heq)
    · exact h₂ j hj i hi hei (by rw [hej, heq])
    · exact h₂ i hi j hj hej (by rw [hei, heq])
    · exact h₁ i hi j hj hij (by rw [hei]; rfl) (by rw [hei, hej, heq])

/-- C2 witness: header `["id"]` with one blank-id row and one explicit-id row
satisfies the side conditions; the blank row gets exactly one `id`, the
synthesised `"S-1"`, and the read's identifiers are pairwise distinct. -/
theorem C2_witness :
    (∀ i (hi : i < ([[""], ["x"]] : List (List String)).length),
      rowExplicitId ["id"] ([[""], ["x"]] : List (List String))[i] = none →
      (sheetValuesToObjects (["id"] :: [[""], ["x"]]) "S").get? i =
        some (rowToObject "S" ["id"] i ([[""], ["x"]] : List (List String))[i]) ∧
      ((rowToObject "S" ["id"] i
          ([[""], ["x"]] : List (List String))[i]).map Prod.fst).count "id" = 1 ∧
      objLookup (rowToObject "S" ["id"] i
          ([[""], ["x"]] : List (List String))[i]) "id" =
        some (synthId "S" i)) ∧
    (recordIds (sheetValuesToObjects (["id"] :: [[""], ["x"]]) "S")).Nodup :=
  C2_id_synthesis "S" ["id"] [[""], ["x"]] (by decide) (by decide)

end Senteng
